import Mathlib

/-!
Verification of the scene-timing scheduler and subtitle generator of
`utils/video_builder.py` (`_make_srt`, `fmt`, and the trim logic inside
`build_video_from_script`), together with the empty-script validation shared
with `app.py`.

Modelling conventions: audio durations (Python floats) are rationals;
`target_seconds` is an integer, matching the Python signature
`target_seconds: int = 60`; file-system and rendering side effects are
dropped, keeping the pure data flow (script -> lines -> segments ->
trimmed plan, and segments -> SRT text).
-/

/-- The colon used inside `HH:MM:SS,mmm` timestamps. -/
def strColon : String := ":"

/-- The comma separating seconds from milliseconds in a timestamp. -/
def strComma : String := ","

/-- The arrow between the start and end timestamps of an SRT block. -/
def strArrow : String := " --> "

/-- The newline used both inside blocks and as the join separator. -/
def strNL : String := "\n"

/-- The empty string (used by the non-empty-line filter). -/
def strEmpty : String := ""

/-- The truncation marker appended by `build_video_from_script` line 145
(`ln + " …"`). -/
def ellipsisMark : String := " …"

/-- The zero digit used for zero padding. -/
def zeroChar : Char := '0'

/-- The line separator recognised when splitting the script into lines. -/
def newlineChar : Char := '\n'

/-- Python `int(q)` on a real value: truncation toward zero. -/
def pyInt (q : ℚ) : ℤ := if q < 0 then ⌈q⌉ else ⌊q⌋

/-- Embeds `ms = int((ts - int(ts)) * 1000)` from `fmt` (video_builder.py
line 108). -/
def fmtMillis (ts : ℚ) : ℤ := pyInt ((ts - (pyInt ts : ℚ)) * 1000)

/-- Embeds `s = int(ts) % 60` (line 109).  Python `%` on ints with a positive
divisor agrees with `Int.emod`, which is Lean's `%`. -/
def fmtSecondsPart (ts : ℚ) : ℤ := pyInt ts % 60

/-- Embeds `m = (int(ts) // 60) % 60` (line 110).  Python `//` on ints with a
positive divisor agrees with `Int.ediv`, which is Lean's `/`. -/
def fmtMinutesPart (ts : ℚ) : ℤ := pyInt ts / 60 % 60

/-- Embeds `h = int(ts) // 3600` (line 111). -/
def fmtHoursPart (ts : ℚ) : ℤ := pyInt ts / 3600

/-- A run of `k` zero digits. -/
def zeros (k : ℕ) : String := String.mk (List.replicate k zeroChar)

/-- Python `f"{n:0wd}"` for the non-negative components produced by `fmt`:
the decimal rendering of `n` left-padded with zeros to width `w`. -/
def padZ (w : ℕ) (n : ℤ) : String :=
  zeros (w - (toString n).length) ++ toString n

/-- Embeds the inner helper `fmt` of `_make_srt` (lines 107-112): render a
timestamp as `HH:MM:SS,mmm` via `f"{h:02d}:{m:02d}:{s:02d},{ms:03d}"`. -/
def fmt (ts : ℚ) : String :=
  padZ 2 (fmtHoursPart ts) ++ strColon ++ padZ 2 (fmtMinutesPart ts) ++ strColon
    ++ padZ 2 (fmtSecondsPart ts) ++ strComma ++ padZ 3 (fmtMillis ts)

/-- Embeds the block `f"{i}\n{fmt(start)} --> {fmt(end)}\n{line}\n"` appended
for each segment by `_make_srt` (line 116). -/
def renderBlock (i : ℕ) (start stop : ℚ) (line : String) : String :=
  toString i ++ strNL ++ fmt start ++ strArrow ++ fmt stop ++ strNL ++ line ++ strNL

/-- Embeds the loop of `_make_srt` (lines 113-117): `i` is the 1-based
counter from `enumerate(segments, 1)` and `t` the running clock. -/
def srtLoop : List (String × ℚ) → ℕ → ℚ → List String
  | [], _, _ => []
  | (line, dur) :: rest, i, t =>
    renderBlock i t (t + dur) line :: srtLoop rest (i + 1) (t + dur)

/-- Embeds `_make_srt` (lines 106-118): render every segment's block starting
from index 1 and clock 0.0, then `"\n".join(out)`. -/
def makeSrt (segments : List (String × ℚ)) : String :=
  String.intercalate strNL (srtLoop segments 1 0)

/-- A subtitle entry as described by the spec's data model: the quadruple
`(i, start, end, line)` that each iteration of `_make_srt`'s loop feeds into
its format string. -/
structure SubtitleEntry where
  idx : ℕ
  start : ℚ
  stop : ℚ
  text : String

/-- Render one subtitle entry as its SRT block. -/
def renderEntry (e : SubtitleEntry) : String :=
  renderBlock e.idx e.start e.stop e.text

/-- The subtitle entries produced by `_make_srt`'s loop, materialised as data
(same recursion as `srtLoop`, before the format string is applied). -/
def srtEntriesAux : List (String × ℚ) → ℕ → ℚ → List SubtitleEntry
  | [], _, _ => []
  | (line, dur) :: rest, i, t =>
    ⟨i, t, t + dur, line⟩ :: srtEntriesAux rest (i + 1) (t + dur)

/-- The subtitle timeline of a segment list: 1-based indices, clock from 0. -/
def srtEntries (segments : List (String × ℚ)) : List SubtitleEntry :=
  srtEntriesAux segments 1 0

/-- Sum of the durations of a segment list (`total = sum(durations)`,
line 135). -/
def totalDuration (segments : List (String × ℚ)) : ℚ :=
  (segments.map Prod.snd).sum

/-- Embeds the trim loop of `build_video_from_script` (lines 137-146):
keep whole segments while they fit, and on the first segment that would
exceed the budget emit `(ln + " …", max(0.3, target_seconds - running))`
and stop. -/
def trimAux : List (String × ℚ) → ℤ → ℚ → List (String × ℚ)
  | [], _, _ => []
  | (line, d) :: rest, target, running =>
    if running + d ≤ (target : ℚ) then
      (line, d) :: trimAux rest target (running + d)
    else
      [(line ++ ellipsisMark, max (3 / 10) ((target : ℚ) - running))]

/-- The scene-timing scheduler of `build_video_from_script` (lines 135-147):
trim only when `total > target_seconds`, otherwise keep all segments. -/
def schedule (segments : List (String × ℚ)) (target : ℤ) : List (String × ℚ) :=
  if totalDuration segments > (target : ℚ) then trimAux segments target 0
  else segments

/-- Whitespace for the purposes of Python's `str.strip()` (the characters
that can occur around a script line). -/
def isSpaceChar (c : Char) : Bool :=
  c == ' ' || c == '\t' || c == '\n' || c == '\r'

/-- Python `str.strip()` on a character list: drop whitespace from both
ends. -/
def stripChars (cs : List Char) : List Char :=
  ((cs.dropWhile isSpaceChar).reverse.dropWhile isSpaceChar).reverse

/-- Split a character list at newline characters (model of Python
`str.splitlines()`; the difference — Python drops a trailing empty line and
also splits at rarer separators like `\r` — is erased by the subsequent
strip-and-filter). -/
def splitNLAux : List Char → List Char → List (List Char)
  | [], acc => [acc.reverse]
  | c :: rest, acc =>
    if c == newlineChar then acc.reverse :: splitNLAux rest []
    else splitNLAux rest (c :: acc)

/-- Split a script's characters into its lines. -/
def splitNL (cs : List Char) : List (List Char) := splitNLAux cs []

/-- Embeds `lines = [ln.strip() for ln in script.splitlines() if ln.strip()]`
(video_builder.py line 123): strip every line and keep the non-empty ones. -/
def extractLines (script : String) : List String :=
  (((splitNL script.toList).map stripChars).map String.mk).filter
    fun l => l != strEmpty

/-- The message of the `ValueError` raised on line 125. -/
def errEmptyScript : String := "Script has no non-empty lines."

/-- Embeds the pure data flow of `build_video_from_script` (lines 120-174):
validate that the script has non-empty lines, synthesise one segment per
line (`synth` standing for `tts.synth`, which returns the duration), trim to
the target, and produce the SRT text.  The returned pair is (final scene
plan used for rendering, SRT text written to disk).  Note that line 174
writes `_make_srt(segments)` with the segment list built on lines 127-133,
which the trimming on line 147 does not reassign — so the SRT is rendered
from the untrimmed segments. -/
def buildVideoFromScript (script : String) (synth : String → ℚ) (target : ℤ) :
    Except String (List (String × ℚ) × String) :=
  let lines := extractLines script
  if lines = [] then Except.error errEmptyScript
  else
    let segments := lines.map fun ln => (ln, synth ln)
    Except.ok (schedule segments target, makeSrt segments)

/-- Modelled from the spec: the parse half of the documented `HH:MM:SS,mmm`
parse/format pair (§8; the repository contains no parser).  It is
represented on the component quadruple `(h, m, s, ms)` of a timestamp:
parsing yields `h·3600 + m·60 + s + ms/1000` seconds. -/
def parseTimestamp (h m s ms : ℤ) : ℚ :=
  (h : ℚ) * 3600 + (m : ℚ) * 60 + (s : ℚ) + (ms : ℚ) / 1000

/-- First line of the walkthrough scenario in the spec (§8). -/
def strHello : String := "Hello"

/-- Second line of the walkthrough scenario. -/
def strWorld : String := "World"

/-- Third line of the walkthrough scenario. -/
def strGoodbye : String := "Goodbye"

/-- The single line of the spec's short scenario. -/
def strHi : String := "Hi"

/-- A segment text used in the budget-overshoot counterexample. -/
def strA : String := "alpha"

/-- A second segment text used in the budget-overshoot counterexample. -/
def strB : String := "beta"

/-- The script of the spec's walkthrough scenario: three lines. -/
def c1script : String := "Hello\nWorld\nGoodbye"

/-- A duration provider giving every line 2.0 seconds of audio, matching the
walkthrough scenario. -/
def c1synth : String → ℚ := fun _ => 2

/-- The segments built from `c1script` under `c1synth` (the untrimmed list of
video_builder.py lines 127-133). -/
def c1segments : List (String × ℚ) := [(strHello, 2), (strWorld, 2), (strGoodbye, 2)]

/-- The scene plan the scheduler produces for `c1segments` with a 3-second
budget. -/
def c1plan : List (String × ℚ) := [(strHello, 2), (strWorld ++ ellipsisMark, 1)]

/-- The SRT text the code actually writes in the walkthrough scenario: three
entries spanning 0-6 seconds, rendered from the untrimmed segments. -/
def c1writtenSrt : String :=
  "1\n00:00:00,000 --> 00:00:02,000\nHello\n\n2\n00:00:02,000 --> 00:00:04,000\nWorld\n\n3\n00:00:04,000 --> 00:00:06,000\nGoodbye\n"

/-- The SRT text the spec's scenario expects: two entries matching the
trimmed scene plan. -/
def c1plannedSrt : String :=
  "1\n00:00:00,000 --> 00:00:02,000\nHello\n\n2\n00:00:02,000 --> 00:00:03,000\nWorld …\n"

/-- The single-segment input of the spec's short scenario. -/
def hiSegs : List (String × ℚ) := [(strHi, 1 / 10)]

/-- The subtitle text expected for `hiSegs`. -/
def hiSrt : String := "1\n00:00:00,000 --> 00:00:00,100\nHi\n"

/-- Segments whose trim overshoots the budget: 59.9s fits into 60s, and the
second segment is truncated to the 0.3s floor. -/
def c4segs : List (String × ℚ) := [(strA, 599 / 10), (strB, 1)]

/-- A script whose every line is blank after stripping. -/
def blankScript : String := "   \n\n  "

/-- The timestamp 3725.250 seconds of the spec's round-trip example. -/
def tsExample : ℚ := 14901 / 4

/-! ### Helper lemmas -/

lemma pyInt_of_nonneg {q : ℚ} (h : 0 ≤ q) : pyInt q = ⌊q⌋ := by
  rw [pyInt, if_neg (not_lt.2 h)]

lemma pyInt_intCast (n : ℤ) : pyInt ((n : ℚ)) = n := by
  rw [pyInt]
  rcases lt_or_le ((n : ℚ)) 0 with h | h
  · rw [if_pos h, Int.ceil_intCast]
  · rw [if_neg (not_lt.2 h), Int.floor_intCast]

lemma totalDuration_nil : totalDuration [] = 0 := rfl

lemma totalDuration_cons (p : String × ℚ) (l : List (String × ℚ)) :
    totalDuration (p :: l) = p.2 + totalDuration l := by
  simp [totalDuration]

lemma totalDuration_nonneg {l : List (String × ℚ)} (h : ∀ p ∈ l, 0 ≤ p.2) :
    0 ≤ totalDuration l := by
  induction l with
  | nil => simp [totalDuration]
  | cons a rest ih =>
    rw [totalDuration_cons]
    have h1 := h a (by simp)
    have h2 := ih fun p hp => h p (by simp [hp])
    linarith

lemma totalDuration_take_succ (segs : List (String × ℚ)) (j : ℕ)
    (hj : j < segs.length) :
    totalDuration (segs.take (j + 1)) =
      totalDuration (segs.take j) + (segs.get ⟨j, hj⟩).2 := by
  have hj2 : j < (segs.map Prod.snd).length := by simpa using hj
  simp only [totalDuration, List.map_take]
  rw [List.take_succ, List.getElem?_eq_getElem hj2, List.getElem_map]
  simp [List.get_eq_getElem]

lemma fmt_zero : fmt 0 = "00:00:00,000" := by
  norm_num [fmt, fmtHoursPart, fmtMinutesPart, fmtSecondsPart, fmtMillis, pyInt]
  decide

lemma fmt_two : fmt 2 = "00:00:02,000" := by
  norm_num [fmt, fmtHoursPart, fmtMinutesPart, fmtSecondsPart, fmtMillis, pyInt]
  decide

lemma fmt_three : fmt 3 = "00:00:03,000" := by
  norm_num [fmt, fmtHoursPart, fmtMinutesPart, fmtSecondsPart, fmtMillis, pyInt]
  decide

lemma fmt_four : fmt 4 = "00:00:04,000" := by
  norm_num [fmt, fmtHoursPart, fmtMinutesPart, fmtSecondsPart, fmtMillis, pyInt]
  decide

lemma fmt_six : fmt 6 = "00:00:06,000" := by
  norm_num [fmt, fmtHoursPart, fmtMinutesPart, fmtSecondsPart, fmtMillis, pyInt]
  decide

lemma fmt_tenth : fmt (1 / 10) = "00:00:00,100" := by
  norm_num [fmt, fmtHoursPart, fmtMinutesPart, fmtSecondsPart, fmtMillis, pyInt]
  decide

lemma fmt_tsExample : fmt tsExample = "01:02:05,250" := by
  norm_num [tsExample, fmt, fmtHoursPart, fmtMinutesPart, fmtSecondsPart, fmtMillis, pyInt]
  decide

lemma trimAux_spec (segs : List (String × ℚ)) (target : ℤ) :
    ∀ running : ℚ, (∀ p ∈ segs, 0 ≤ p.2) → running ≤ (target : ℚ) →
      (target : ℚ) < running + totalDuration segs →
      ∃ k, ∃ hk : k < segs.length,
        trimAux segs target running =
          segs.take k ++ [((segs.get ⟨k, hk⟩).1 ++ ellipsisMark,
            max (3 / 10) ((target : ℚ) - (running + totalDuration (segs.take k))))] := by
  induction segs with
  | nil =>
    intro running _ hrun hover
    rw [totalDuration_nil] at hover
    exact absurd hrun (not_le.2 (by linarith))
  | cons a rest ih =>
    obtain ⟨ln, d⟩ := a
    intro running hd hrun hover
    rw [trimAux]
    by_cases hle : running + d ≤ (target : ℚ)
    · rw [if_pos hle]
      have hrest : ∀ p ∈ rest, 0 ≤ p.2 := fun p hp => hd p (List.mem_cons_of_mem _ hp)
      have hover2 : (target : ℚ) < (running + d) + totalDuration rest := by
        rw [totalDuration_cons] at hover
        linarith
      obtain ⟨k, hk, heq⟩ := ih (running + d) hrest hle hover2
      refine ⟨k + 1, Nat.succ_lt_succ hk, ?_⟩
      rw [heq]
      simp only [List.take_succ_cons, List.cons_append, List.get_cons_succ,
        totalDuration_cons]
      rw [add_assoc]
    · rw [if_neg hle]
      refine ⟨0, Nat.succ_pos _, ?_⟩
      simp only [List.take_zero, List.nil_append, totalDuration_nil]
      rw [add_zero]
      rfl

lemma trimAux_total_le (segs : List (String × ℚ)) (target : ℤ) :
    ∀ running : ℚ, running ≤ (target : ℚ) →
      running + totalDuration (trimAux segs target running) ≤ (target : ℚ) + 3 / 10 := by
  induction segs with
  | nil =>
    intro running h
    rw [trimAux, totalDuration_nil]
    linarith
  | cons a rest ih =>
    obtain ⟨ln, d⟩ := a
    intro running h
    rw [trimAux]
    by_cases hle : running + d ≤ (target : ℚ)
    · rw [if_pos hle, totalDuration_cons]
      have h2 := ih (running + d) hle
      linarith
    · rw [if_neg hle]
      simp only [totalDuration_cons, totalDuration_nil]
      rcases le_total ((target : ℚ) - running) (3 / 10) with hc | hc
      · rw [max_eq_left hc]
        linarith
      · rw [max_eq_right hc]
        linarith

lemma trimAux_cons_ne_nil (ln : String) (d : ℚ) (rest : List (String × ℚ))
    (target : ℤ) (running : ℚ) : trimAux ((ln, d) :: rest) target running ≠ [] := by
  rw [trimAux]
  split <;> simp

lemma trimAux_mem_durations (segs : List (String × ℚ)) (target : ℤ) :
    ∀ running : ℚ, ∀ p ∈ trimAux segs target running,
      p.2 ∈ segs.map Prod.snd ∨ (3 / 10 : ℚ) ≤ p.2 := by
  induction segs with
  | nil =>
    intro running p hp
    rw [trimAux] at hp
    cases hp
  | cons a rest ih =>
    obtain ⟨ln, d⟩ := a
    intro running p hp
    rw [trimAux] at hp
    by_cases hle : running + d ≤ (target : ℚ)
    · rw [if_pos hle] at hp
      rcases List.mem_cons.1 hp with rfl | hp2
      · exact Or.inl (by simp)
      · rcases ih (running + d) p hp2 with hmem | hge
        · exact Or.inl (by simp [hmem])
        · exact Or.inr hge
    · rw [if_neg hle] at hp
      rcases List.mem_singleton.1 hp with rfl
      exact Or.inr (le_max_left _ _)

lemma srtEntriesAux_length (segs : List (String × ℚ)) (i : ℕ) (t : ℚ) :
    (srtEntriesAux segs i t).length = segs.length := by
  induction segs generalizing i t with
  | nil => rfl
  | cons a rest ih =>
    obtain ⟨ln, d⟩ := a
    rw [srtEntriesAux]
    simp [ih]

lemma srtEntriesAux_getElem? (segs : List (String × ℚ)) (i : ℕ) (t : ℚ) (j : ℕ) :
    (srtEntriesAux segs i t)[j]? =
      (segs[j]?).map fun p =>
        ⟨i + j, t + totalDuration (segs.take j),
          t + totalDuration (segs.take j) + p.2, p.1⟩ := by
  induction segs generalizing i t j with
  | nil => simp [srtEntriesAux]
  | cons a rest ih =>
    obtain ⟨ln, d⟩ := a
    cases j with
    | zero => simp [srtEntriesAux, totalDuration]
    | succ j =>
      rw [srtEntriesAux]
      rw [List.getElem?_cons_succ, List.getElem?_cons_succ, ih]
      cases h : rest[j]? with
      | none => simp
      | some p =>
        simp only [Option.map_some', SubtitleEntry.mk.injEq, List.take_succ_cons,
          Option.some.injEq]
        refine ⟨by omega, by simp [totalDuration]; ring,
          by simp [totalDuration]; ring, trivial⟩

lemma srtEntries_getElem (segs : List (String × ℚ)) (j : ℕ) (hj : j < segs.length)
    (hj2 : j < (srtEntries segs).length) :
    (srtEntries segs)[j] =
      ⟨1 + j, totalDuration (segs.take j),
        totalDuration (segs.take j) + (segs.get ⟨j, hj⟩).2, (segs.get ⟨j, hj⟩).1⟩ := by
  have h1 := srtEntriesAux_getElem? segs 1 0 j
  rw [List.getElem?_eq_getElem hj] at h1
  have h2 : (srtEntries segs)[j]? = some ((srtEntries segs)[j]) :=
    List.getElem?_eq_getElem hj2
  unfold srtEntries at h2
  rw [h2] at h1
  have h3 := Option.some.inj h1
  unfold srtEntries
  rw [h3]
  simp [List.get_eq_getElem]

lemma srtLoop_eq_map (segs : List (String × ℚ)) (i : ℕ) (t : ℚ) :
    srtLoop segs i t = (srtEntriesAux segs i t).map renderEntry := by
  induction segs generalizing i t with
  | nil => rfl
  | cons a rest ih =>
    obtain ⟨ln, d⟩ := a
    rw [srtLoop, srtEntriesAux, List.map_cons, ih]
    rfl

lemma makeSrt_c1segments : makeSrt c1segments = c1writtenSrt := by
  simp only [c1segments, makeSrt, srtLoop, renderBlock]
  norm_num
  rw [fmt_zero, fmt_two, fmt_four, fmt_six]
  decide

lemma makeSrt_c1plan : makeSrt c1plan = c1plannedSrt := by
  simp only [c1plan, makeSrt, srtLoop, renderBlock]
  norm_num
  rw [fmt_zero, fmt_two, fmt_three]
  decide

lemma schedule_c1segments : schedule c1segments 3 = c1plan := by
  rw [c1plan]
  norm_num [c1segments, schedule, trimAux, totalDuration]

lemma extractLines_c1script : extractLines c1script = [strHello, strWorld, strGoodbye] := by
  decide

/-! ### Claim theorems -/

/-- Claim C2: for every input whose total duration exceeds `target_seconds`
(a positive integer, per the scheduler contract) with the data model's
non-negative durations, the scheduler keeps the first `k` segments unchanged,
replaces the `k`-th original segment by one whose text is the original text
with the ellipsis marker appended and whose duration
`max(0.3, target - sum of kept durations)` lies in `[0.3, target]`, and
drops every later segment. -/
theorem schedule_over_budget_truncated_prefix (segs : List (String × ℚ))
    (target : ℤ) (hd : ∀ p ∈ segs, 0 ≤ p.2) (ht : 0 < target)
    (hover : (target : ℚ) < totalDuration segs) :
    ∃ k, ∃ hk : k < segs.length,
      schedule segs target =
        segs.take k ++ [((segs.get ⟨k, hk⟩).1 ++ ellipsisMark,
          max (3 / 10) ((target : ℚ) - totalDuration (segs.take k)))] ∧
      (3 / 10 : ℚ) ≤ max (3 / 10) ((target : ℚ) - totalDuration (segs.take k)) ∧
      max (3 / 10) ((target : ℚ) - totalDuration (segs.take k)) ≤ (target : ℚ) := by
  have h0 : (0 : ℚ) ≤ (target : ℚ) := by exact_mod_cast ht.le
  obtain ⟨k, hk, heq⟩ :=
    trimAux_spec segs target 0 hd h0 (by rw [zero_add]; exact hover)
  rw [zero_add] at heq
  refine ⟨k, hk, ?_, le_max_left _ _, ?_⟩
  · unfold schedule
    rw [if_pos hover, heq]
  · have h1 : (3 / 10 : ℚ) ≤ (target : ℚ) := by
      have h2 : (1 : ℚ) ≤ (target : ℚ) := by exact_mod_cast ht
      linarith
    have h3 : 0 ≤ totalDuration (segs.take k) :=
      totalDuration_nonneg fun p hp => hd p (List.take_subset k segs hp)
    exact max_le h1 (by linarith)

/-- Witness for C2: the walkthrough scenario, three 2-second segments against
a 3-second budget. -/
theorem schedule_over_budget_truncated_prefix_witness :
    (∀ p ∈ c1segments, 0 ≤ p.2) ∧ (0 : ℤ) < 3 ∧
    ((3 : ℤ) : ℚ) < totalDuration c1segments ∧
    ∃ k, ∃ hk : k < c1segments.length,
      schedule c1segments 3 =
        c1segments.take k ++ [((c1segments.get ⟨k, hk⟩).1 ++ ellipsisMark,
          max (3 / 10) (((3 : ℤ) : ℚ) - totalDuration (c1segments.take k)))] ∧
      (3 / 10 : ℚ) ≤ max (3 / 10) (((3 : ℤ) : ℚ) - totalDuration (c1segments.take k)) ∧
      max (3 / 10) (((3 : ℤ) : ℚ) - totalDuration (c1segments.take k)) ≤ ((3 : ℤ) : ℚ) := by
  have h1 : ∀ p ∈ c1segments, 0 ≤ p.2 := by
    intro p hp
    simp only [c1segments, List.mem_cons, List.not_mem_nil, or_false] at hp
    rcases hp with rfl | rfl | rfl <;> norm_num
  have h2 : ((3 : ℤ) : ℚ) < totalDuration c1segments := by
    norm_num [c1segments, totalDuration]
  exact ⟨h1, by norm_num, h2,
    schedule_over_budget_truncated_prefix c1segments 3 h1 (by norm_num) h2⟩

/-- Claim C3: a non-empty input whose total duration is at most
`target_seconds` is returned unchanged by the scheduler. -/
theorem schedule_within_budget_unchanged (segs : List (String × ℚ))
    (target : ℤ) (hne : segs ≠ [])
    (hle : totalDuration segs ≤ (target : ℚ)) :
    schedule segs target = segs := by
  unfold schedule
  rw [if_neg (not_lt.2 hle)]

/-- Witness for C3: the single 0.1-second segment against a 60-second
budget. -/
theorem schedule_within_budget_unchanged_witness :
    hiSegs ≠ [] ∧ totalDuration hiSegs ≤ ((60 : ℤ) : ℚ) ∧
    schedule hiSegs 60 = hiSegs := by
  have h1 : hiSegs ≠ [] := by simp [hiSegs]
  have h2 : totalDuration hiSegs ≤ ((60 : ℤ) : ℚ) := by
    norm_num [hiSegs, totalDuration]
  exact ⟨h1, h2, schedule_within_budget_unchanged hiSegs 60 h1 h2⟩

/-- Claim C4, counterexample: with the positive target 60 and segments of
59.9s and 1s, the scheduler truncates the second segment to the 0.3s floor
and the scheduled total 60.2s exceeds the target — beyond any floating-point
tolerance — so the claimed invariant fails as stated. -/
theorem schedule_total_can_exceed_target :
    (0 : ℤ) < 60 ∧ totalDuration (schedule c4segs 60) = 301 / 5 ∧
    ¬ totalDuration (schedule c4segs 60) ≤ ((60 : ℤ) : ℚ) := by
  have h : schedule c4segs 60 = [(strA, 599 / 10), (strB ++ ellipsisMark, 3 / 10)] := by
    norm_num [c4segs, schedule, trimAux, totalDuration]
  refine ⟨by norm_num, ?_, ?_⟩
  · rw [h]
    norm_num [totalDuration]
  · rw [h]
    norm_num [totalDuration]

/-- Claim C4, amended: the truncation floor can overshoot the budget by at
most the 0.3-second floor, so for every positive integer target the
scheduled total is at most `target_seconds + 0.3`. -/
theorem schedule_total_le_target_plus_floor (segs : List (String × ℚ))
    (target : ℤ) (ht : 0 < target) :
    totalDuration (schedule segs target) ≤ (target : ℚ) + 3 / 10 := by
  have h0 : (0 : ℚ) ≤ (target : ℚ) := by exact_mod_cast ht.le
  unfold schedule
  by_cases hc : totalDuration segs > (target : ℚ)
  · rw [if_pos hc]
    have h1 := trimAux_total_le segs target 0 h0
    linarith
  · rw [if_neg hc]
    have h1 := not_lt.1 hc
    linarith

/-- Witness for the amended C4: the counterexample segments stay within
60.3 seconds. -/
theorem schedule_total_le_target_plus_floor_witness :
    (0 : ℤ) < 60 ∧ totalDuration (schedule c4segs 60) ≤ ((60 : ℤ) : ℚ) + 3 / 10 :=
  ⟨by norm_num, schedule_total_le_target_plus_floor c4segs 60 (by norm_num)⟩

/-- Claim C5: the scheduler never returns an empty sequence for a non-empty
input, and when the first segment's duration alone exceeds the target (the
remaining durations being non-negative) the result is exactly that one
segment, its duration floored to `max(0.3, target_seconds)` and its text
carrying the truncation marker. -/
theorem schedule_keeps_first_segment (txt : String) (d : ℚ)
    (rest : List (String × ℚ)) (target : ℤ) :
    schedule ((txt, d) :: rest) target ≠ [] ∧
    ((∀ p ∈ rest, 0 ≤ p.2) → (target : ℚ) < d →
      schedule ((txt, d) :: rest) target =
        [(txt ++ ellipsisMark, max (3 / 10) (target : ℚ))]) := by
  constructor
  · unfold schedule
    by_cases hc : totalDuration ((txt, d) :: rest) > (target : ℚ)
    · rw [if_pos hc]
      exact trimAux_cons_ne_nil txt d rest target 0
    · rw [if_neg hc]
      simp
  · intro hrest hd
    have hover : (target : ℚ) < totalDuration ((txt, d) :: rest) := by
      rw [totalDuration_cons]
      have h1 := totalDuration_nonneg hrest
      linarith
    unfold schedule
    rw [if_pos hover, trimAux,
      if_neg (by rw [zero_add]; exact not_le.2 hd), sub_zero]

/-- Witness for C5: a single 10-second segment against a 3-second budget. -/
theorem schedule_keeps_first_segment_witness :
    schedule [(strHello, 10)] 3 ≠ [] ∧
    schedule [(strHello, 10)] 3 =
      [(strHello ++ ellipsisMark, max (3 / 10) ((3 : ℤ) : ℚ))] := by
  have h := schedule_keeps_first_segment strHello 10 [] 3
  exact ⟨h.1, h.2 (by simp) (by norm_num)⟩

/-- Claim C10: when every input duration is strictly positive, every
scheduled duration is strictly positive — each one is either an original
input duration (segments kept unchanged) or at least the 0.3-second
truncation floor. -/
theorem schedule_durations_positive (segs : List (String × ℚ)) (target : ℤ)
    (hd : ∀ p ∈ segs, 0 < p.2) :
    ∀ p ∈ schedule segs target,
      0 < p.2 ∧ (p.2 ∈ segs.map Prod.snd ∨ (3 / 10 : ℚ) ≤ p.2) := by
  intro p hp
  unfold schedule at hp
  by_cases hc : totalDuration segs > (target : ℚ)
  · rw [if_pos hc] at hp
    have hm := trimAux_mem_durations segs target 0 p hp
    refine ⟨?_, hm⟩
    rcases hm with hmem | hge
    · obtain ⟨q, hq, hq2⟩ := List.mem_map.1 hmem
      rw [← hq2]
      exact hd q hq
    · linarith
  · rw [if_neg hc] at hp
    exact ⟨hd p hp, Or.inl (List.mem_map_of_mem _ hp)⟩

/-- Witness for C10: a single positive-duration segment under a large
budget. -/
theorem schedule_durations_positive_witness :
    (∀ p ∈ hiSegs, 0 < p.2) ∧
    ∀ p ∈ schedule hiSegs 60,
      0 < p.2 ∧ (p.2 ∈ hiSegs.map Prod.snd ∨ (3 / 10 : ℚ) ≤ p.2) := by
  have h1 : ∀ p ∈ hiSegs, 0 < p.2 := by
    intro p hp
    simp only [hiSegs, List.mem_singleton] at hp
    rw [hp]
    norm_num
  exact ⟨h1, schedule_durations_positive hiSegs 60 h1⟩

/-- Claim C1 (refuted by the code): in the walkthrough scenario the builder
produces the trimmed two-scene plan, but the subtitle text it writes is
rendered from the untrimmed segments (line 174 passes `segments`, which the
trim on line 147 never reassigns): it has three entries spanning six
seconds, not the two entries matching the scheduled scenes, and differs from
the two-entry subtitle text the spec's scenario requires. -/
theorem build_writes_untrimmed_srt :
    buildVideoFromScript c1script c1synth 3 = Except.ok (c1plan, c1writtenSrt) ∧
    makeSrt c1plan = c1plannedSrt ∧ c1writtenSrt ≠ c1plannedSrt := by
  refine ⟨?_, makeSrt_c1plan, by decide⟩
  calc buildVideoFromScript c1script c1synth 3
      = Except.ok (schedule c1segments 3, makeSrt c1segments) := by
        rw [buildVideoFromScript, extractLines_c1script]
        norm_num [c1synth, c1segments]
        intro hc
        simp at hc
    _ = Except.ok (c1plan, c1writtenSrt) := by
        rw [schedule_c1segments, makeSrt_c1segments]

/-- Claim C6: the subtitle entries generated from any segment list with
non-negative durations are contiguous and non-overlapping — the first entry
starts at exactly 0, every entry's end equals the next entry's start
exactly, and indices are 1-based and sequential. -/
theorem srt_entries_contiguous (segs : List (String × ℚ))
    (hd : ∀ p ∈ segs, 0 ≤ p.2) :
    (∀ h0 : 0 < (srtEntries segs).length, ((srtEntries segs)[0]).start = 0) ∧
    (∀ (j : ℕ) (hj : j < (srtEntries segs).length),
      ((srtEntries segs)[j]).idx = j + 1) ∧
    (∀ (j : ℕ) (hj1 : j + 1 < (srtEntries segs).length)
      (hj0 : j < (srtEntries segs).length),
      ((srtEntries segs)[j]).stop = ((srtEntries segs)[j + 1]).start) := by
  have hlen : (srtEntries segs).length = segs.length := srtEntriesAux_length segs 1 0
  refine ⟨?_, ?_, ?_⟩
  · intro h0
    rw [srtEntries_getElem segs 0 (hlen ▸ h0) h0]
    simp [totalDuration]
  · intro j hj
    rw [srtEntries_getElem segs j (hlen ▸ hj) hj]
    dsimp only
    omega
  · intro j hj1 hj0
    have hs0 : j < segs.length := hlen ▸ hj0
    have hs1 : j + 1 < segs.length := hlen ▸ hj1
    rw [srtEntries_getElem segs j hs0 hj0,
      srtEntries_getElem segs (j + 1) hs1 hj1]
    dsimp only
    rw [totalDuration_take_succ segs j hs0]

/-- Witness for C6: the walkthrough segments, checked at the first pair of
adjacent entries. -/
theorem srt_entries_contiguous_witness :
    (∀ p ∈ c1segments, 0 ≤ p.2) ∧
    (∀ h0 : 0 < (srtEntries c1segments).length,
      ((srtEntries c1segments)[0]).start = 0) ∧
    (∀ (j : ℕ) (hj1 : j + 1 < (srtEntries c1segments).length)
      (hj0 : j < (srtEntries c1segments).length),
      ((srtEntries c1segments)[j]).stop = ((srtEntries c1segments)[j + 1]).start) := by
  have hd : ∀ p ∈ c1segments, 0 ≤ p.2 := by
    intro p hp
    simp only [c1segments, List.mem_cons, List.not_mem_nil, or_false] at hp
    rcases hp with rfl | rfl | rfl <;> norm_num
  have h := srt_entries_contiguous c1segments hd
  exact ⟨hd, h.1, h.2.2⟩

/-- Claim C7: the subtitle serializer is the blank-line-separated join of the
per-entry blocks `index, start --> end, text` over the generated timeline,
and on the single segment `("Hi", 0.1)` it yields exactly one entry spanning
`00:00:00,000 --> 00:00:00,100` with text `Hi`. -/
theorem make_srt_renders_blocks :
    (∀ segs : List (String × ℚ),
      makeSrt segs = String.intercalate strNL ((srtEntries segs).map renderEntry)) ∧
    makeSrt hiSegs = hiSrt := by
  constructor
  · intro segs
    rw [makeSrt]
    unfold srtEntries
    rw [srtLoop_eq_map]
  · simp only [hiSegs, makeSrt, srtLoop, renderBlock]
    norm_num
    rw [fmt_zero, fmt_tenth]
    decide

/-- Claim C8: formatting is idempotent under the documented parse/format
round trip — for every non-negative timestamp, re-formatting the parse of
its formatted components reproduces the same formatted string. -/
theorem fmt_parse_roundtrip (ts : ℚ) (h : 0 ≤ ts) :
    fmt (parseTimestamp (fmtHoursPart ts) (fmtMinutesPart ts)
      (fmtSecondsPart ts) (fmtMillis ts)) = fmt ts := by
  have hn : pyInt ts = ⌊ts⌋ := pyInt_of_nonneg h
  have hn0 : 0 ≤ pyInt ts := by
    rw [hn]
    exact Int.floor_nonneg.2 h
  have hfr0 : 0 ≤ ts - (pyInt ts : ℚ) := by
    rw [hn]
    have h1 := Int.floor_le ts
    linarith
  have hfr1 : ts - (pyInt ts : ℚ) < 1 := by
    rw [hn]
    have h1 := Int.lt_floor_add_one ts
    linarith
  have hms : fmtMillis ts = ⌊(ts - (pyInt ts : ℚ)) * 1000⌋ := by
    rw [fmtMillis]
    exact pyInt_of_nonneg (mul_nonneg hfr0 (by norm_num))
  have hms0 : 0 ≤ fmtMillis ts := by
    rw [hms]
    exact Int.floor_nonneg.2 (mul_nonneg hfr0 (by norm_num))
  have hms1 : fmtMillis ts < 1000 := by
    rw [hms]
    apply Int.floor_lt.2
    push_cast
    nlinarith
  have hdecomp : fmtHoursPart ts * 3600 + fmtMinutesPart ts * 60 + fmtSecondsPart ts
      = pyInt ts := by
    rw [fmtHoursPart, fmtMinutesPart, fmtSecondsPart]
    omega
  have hparse : parseTimestamp (fmtHoursPart ts) (fmtMinutesPart ts)
      (fmtSecondsPart ts) (fmtMillis ts) =
      (pyInt ts : ℚ) + (fmtMillis ts : ℚ) / 1000 := by
    rw [parseTimestamp]
    have h1 : (fmtHoursPart ts : ℚ) * 3600 + (fmtMinutesPart ts : ℚ) * 60
        + (fmtSecondsPart ts : ℚ) = (pyInt ts : ℚ) := by exact_mod_cast hdecomp
    linarith
  have hq0 : (0 : ℚ) ≤ (fmtMillis ts : ℚ) / 1000 := by
    apply div_nonneg _ (by norm_num)
    exact_mod_cast hms0
  have hq1 : (fmtMillis ts : ℚ) / 1000 < 1 := by
    rw [div_lt_one (by norm_num)]
    exact_mod_cast hms1
  have hpyparse : pyInt ((pyInt ts : ℚ) + (fmtMillis ts : ℚ) / 1000) = pyInt ts := by
    have h2 : (0 : ℚ) ≤ (pyInt ts : ℚ) + (fmtMillis ts : ℚ) / 1000 := by
      have h3 : (0 : ℚ) ≤ (pyInt ts : ℚ) := by exact_mod_cast hn0
      linarith
    rw [pyInt_of_nonneg h2, add_comm, Int.floor_add_int,
      Int.floor_eq_zero_iff.2 (Set.mem_Ico.2 ⟨hq0, hq1⟩), zero_add]
  have hmsEq : fmtMillis ((pyInt ts : ℚ) + (fmtMillis ts : ℚ) / 1000) = fmtMillis ts := by
    rw [fmtMillis, hpyparse]
    have h1 : ((pyInt ts : ℚ) + (fmtMillis ts : ℚ) / 1000 - (pyInt ts : ℚ)) * 1000
        = ((fmtMillis ts : ℚ)) := by
      field_simp
      ring
    rw [h1, pyInt_intCast]
  rw [hparse]
  simp only [fmt, fmtHoursPart, fmtMinutesPart, fmtSecondsPart]
  rw [hpyparse, hmsEq]

/-- Witness for C8: the spec's 3725.250-second example, whose formatted form
is `01:02:05,250`. -/
theorem fmt_parse_roundtrip_witness :
    (0 : ℚ) ≤ tsExample ∧
    fmt (parseTimestamp (fmtHoursPart tsExample) (fmtMinutesPart tsExample)
      (fmtSecondsPart tsExample) (fmtMillis tsExample)) = fmt tsExample ∧
    fmt tsExample = "01:02:05,250" := by
  have h0 : (0 : ℚ) ≤ tsExample := by norm_num [tsExample]
  exact ⟨h0, fmt_parse_roundtrip tsExample h0, fmt_tsExample⟩

/-- Claim C9: a script with no non-empty lines after stripping makes the
builder fail with the validation error before any scheduling or subtitle
work — the returned value is the validation error, not a build product. -/
theorem build_rejects_blank_script (script : String) (synth : String → ℚ)
    (target : ℤ) (h : ∀ cs ∈ splitNL script.toList, stripChars cs = []) :
    buildVideoFromScript script synth target = Except.error errEmptyScript := by
  have hlines : extractLines script = [] := by
    rw [extractLines, List.filter_eq_nil_iff]
    intro l hl
    rw [List.mem_map] at hl
    obtain ⟨cs2, hcs2, rfl⟩ := hl
    rw [List.mem_map] at hcs2
    obtain ⟨cs, hcs, rfl⟩ := hcs2
    rw [h cs hcs]
    decide
  rw [buildVideoFromScript, hlines]
  rfl

/-- Witness for C9: a whitespace-only three-line script is rejected. -/
theorem build_rejects_blank_script_witness :
    (∀ cs ∈ splitNL blankScript.toList, stripChars cs = []) ∧
    buildVideoFromScript blankScript (fun _ => 2) 60 = Except.error errEmptyScript := by
  have h : ∀ cs ∈ splitNL blankScript.toList, stripChars cs = [] := by decide
  exact ⟨h, build_rejects_blank_script blankScript (fun _ => 2) 60 h⟩
